import Mathlib

/-
  Verification of the GroceryBillSplitter repository's bill-splitting core.

  Shallow embedding conventions:
  * Python `Decimal` is modelled as exact rationals (`ℚ`); the spec prescribes
    exact fixed-point decimal semantics for all monetary arithmetic.
  * Python `dict` is modelled as an insertion-ordered association list with
    unique keys maintained by `dictSetItem` (replace-first-match-or-append),
    matching CPython dict update semantics.
  * Fallible Python operations (dict subscription, list indexing, `Decimal`
    division, `int()` parsing, attribute access) return `Except PyError`;
    statement sequencing is written with explicit `match` so that exception
    propagation is visible in the definitions.
  * The primary revision embedded is the `splitmybill` package; the
    `billsplitter` revision's field validators, which differ, are embedded
    separately under the `Billsplitter` namespace.
-/

namespace GroceryBillSplitter

deriving instance DecidableEq for Except

/-- Python exceptions that the embedded code can raise. -/
inductive PyError where
  /-- `KeyError` from subscripting a dict with a missing key. -/
  | keyError (key : String)
  /-- `ValueError` raised explicitly by the source (also by `int()`). -/
  | valueError (msg : String)
  /-- `AttributeError` from reading a missing attribute. -/
  | attributeError (attr : String)
  /-- `decimal.DivisionByZero` / `decimal.InvalidOperation` from dividing by a
      zero `Decimal` (both trapped by default; which one is raised depends on
      the numerator and is not distinguished here). -/
  | decimalDivisionError
  /-- `IndexError` from an out-of-range list subscript. -/
  | indexError
  /-- `TypeError`, e.g. iterating over `None`. -/
  | typeError
deriving DecidableEq, Repr

/-- `splitmybill.data_model.receipt.item.ItemModel` (pydantic).
    `quantity` is `int | Decimal | None` in the source and is modelled as an
    optional rational; the free-form `metadata` bag is not modelled (it is
    never read by the splitting engine). -/
structure ItemModel where
  name : String
  quantity : Option ℚ := none
  unit_price : Option ℚ := none
  subtotal : ℚ
deriving DecidableEq, Repr

/-- `splitmybill.data_model.receipt.tax.TaxModel` (pydantic); `metadata` bag
    not modelled (never read by the splitting engine). -/
structure TaxModel where
  name : String
  rate : Option Int := none
  total : ℚ
deriving DecidableEq, Repr

/-- `splitmybill.data_model.receipt.base.ReceiptModel` (pydantic). All fields
    default to `None` in the source; `metadata` not modelled. -/
structure ReceiptModel where
  items : Option (List ItemModel) := none
  taxes_and_fees : Option (List TaxModel) := none
  subtotal : Option ℚ := none
  total : Option ℚ := none
deriving DecidableEq, Repr

/-- A Python `dict` with `String` keys: insertion-ordered association list.
    All operations below preserve key uniqueness. -/
abbrev Dict (α : Type) := List (String × α)

/-- `d[k]` as an optional lookup (first matching entry). -/
def dictGet? {α : Type} (d : Dict α) (k : String) : Option α :=
  match d with
  | [] => none
  | (k', v) :: rest => if k' = k then some v else dictGet? rest k

/-- `d[k] = v`: replace the value of the first entry with key `k`, or append
    a new entry (CPython keeps the original key position on update). -/
def dictSetItem {α : Type} (d : Dict α) (k : String) (v : α) : Dict α :=
  match d with
  | [] => [(k, v)]
  | (k', v') :: rest =>
    if k' = k then (k', v) :: rest else (k', v') :: dictSetItem rest k v

/-- `d[k]` as an expression: raises `KeyError` when the key is absent. -/
def dictGetItem {α : Type} (d : Dict α) (k : String) : Except PyError α :=
  match dictGet? d k with
  | some v => Except.ok v
  | none => Except.error (PyError.keyError k)

/-- `d[k] += v` on a `dict[str, Decimal]`. -/
def dictAddTo (d : Dict ℚ) (k : String) (v : ℚ) : Except PyError (Dict ℚ) :=
  match dictGet? d k with
  | some old => Except.ok (dictSetItem d k (old + v))
  | none => Except.error (PyError.keyError k)

/-- `d[k].append(x)` on a `dict[str, list[ItemModel]]`. -/
def dictAppendTo (d : Dict (List ItemModel)) (k : String) (x : ItemModel) :
    Except PyError (Dict (List ItemModel)) :=
  match dictGet? d k with
  | some old => Except.ok (dictSetItem d k (old ++ [x]))
  | none => Except.error (PyError.keyError k)

/-- Weighted sum of a dict's values. -/
def dictWSum {α : Type} (f : α → ℚ) (d : Dict α) : ℚ :=
  (d.map (fun e => f e.2)).sum

/-- `sum(d.values())` for a `dict[str, Decimal]`. -/
def dictSum (d : Dict ℚ) : ℚ :=
  dictWSum (fun q => q) d

/-- Helper for `{k: v for k in ks}`-style initialisers: insert `v` at every
    key of `ks` in order, starting from `d`. -/
def dictFromKeysAux {α : Type} (ks : List String) (d : Dict α) (v : α) : Dict α :=
  match ks with
  | [] => d
  | k :: rest => dictFromKeysAux rest (dictSetItem d k v) v

/-- `{k: v for k in ks}`. -/
def dictFromKeys {α : Type} (ks : List String) (v : α) : Dict α :=
  dictFromKeysAux ks [] v

/-- `sum(tax.total for tax in receipt_data.taxes_and_fees)`: iterating `None`
    raises `TypeError` (both `items` and `taxes_and_fees` default to `None`). -/
def pyIter {α : Type} (l : Option (List α)) : Except PyError (List α) :=
  match l with
  | some xs => Except.ok xs
  | none => Except.error PyError.typeError

/-- `Decimal` division. A zero divisor raises (`DivisionByZero` or
    `InvalidOperation`, both trapped by default — never a quiet NaN). -/
def pyDiv (a b : ℚ) : Except PyError ℚ :=
  if b = 0 then Except.error PyError.decimalDivisionError else Except.ok (a / b)

/-- Python list subscription `l[i]` with negative-index wraparound and
    `IndexError` out of range. -/
def pyListIndex {α : Type} (l : List α) (i : Int) : Except PyError α :=
  let j := if i < 0 then i + l.length else i
  if h : 0 ≤ j ∧ j < l.length then
    Except.ok (l.get ⟨j.toNat, by omega⟩)
  else
    Except.error PyError.indexError

/-- `splitmybill.data_model.split.billsplit.BillSplitModel` (pydantic).
    `_participant_shares` and `_tax_shares` are the private lazily-filled
    caches, `None` until computed. -/
structure BillSplitModel where
  common_items : Option (List ItemModel) := none
  separate_items : Option (Dict (List ItemModel)) := none
  participants : List String := []
  _participant_shares : Option (Dict ℚ) := none
  _tax_shares : Option (Dict ℚ) := none
deriving DecidableEq, Repr

/-- Pydantic construction of `BillSplitModel`. The class declares no
    validator of its own, so construction never raises; every field —
    including an empty `participants` list, which is in fact the field's
    default — is accepted as given, and both private caches start as `None`. -/
def mkBillSplitModel (common_items : Option (List ItemModel))
    (separate_items : Option (Dict (List ItemModel)))
    (participants : List String) : Except PyError BillSplitModel :=
  Except.ok ⟨common_items, separate_items, participants, none, none⟩

/-- The keys of `separate_items` (empty when the field is `None`). -/
def sepKeys (b : BillSplitModel) : List String :=
  match b.separate_items with
  | some sep => sep.map (fun e => e.1)
  | none => []

/-- The loop `for person in self.participants: shares[person] += v`
    (second half of the common-items branch of `_calculate_pretax_shares`). -/
def addAllAux (ps : List String) (v : ℚ) (d : Dict ℚ) : Except PyError (Dict ℚ) :=
  match ps with
  | [] => Except.ok d
  | p :: rest =>
    match dictAddTo d p v with
    | Except.error e => Except.error e
    | Except.ok d' => addAllAux rest v d'

/-- The loop `for person, items in self.separate_items.items():
    shares[person] += sum(item.subtotal for item in items)`. -/
def addSeparateAux (entries : List (String × List ItemModel)) (d : Dict ℚ) :
    Except PyError (Dict ℚ) :=
  match entries with
  | [] => Except.ok d
  | e :: rest =>
    match dictAddTo d e.1 ((e.2.map ItemModel.subtotal).sum) with
    | Except.error e' => Except.error e'
    | Except.ok d' => addSeparateAux rest d'

/-- The `# Add shares from common items` block of
    `_calculate_pretax_shares`: `if self.common_items:` (truthy: non-`None`
    and non-empty) divide the common subtotal by `len(self.participants)` and
    add the quotient to every participant's entry. -/
def addCommonShares (b : BillSplitModel) (shares : Dict ℚ) :
    Except PyError (Dict ℚ) :=
  match b.common_items with
  | some items =>
    if items = [] then Except.ok shares
    else
      match pyDiv ((items.map ItemModel.subtotal).sum) (b.participants.length : ℚ) with
      | Except.error e => Except.error e
      | Except.ok common_per_person => addAllAux b.participants common_per_person shares
  | none => Except.ok shares

/-- The `# Add shares from separate items` block of
    `_calculate_pretax_shares`: `if self.separate_items:` add each entry's
    subtotal sum to the entry's key. -/
def addSeparateShares (b : BillSplitModel) (shares : Dict ℚ) :
    Except PyError (Dict ℚ) :=
  match b.separate_items with
  | some sep => if sep = [] then Except.ok shares else addSeparateAux sep shares
  | none => Except.ok shares

/-- Body of `BillSplitModel._calculate_pretax_shares`, returning the dict it
    stores into `self._participant_shares`: start from
    `{person: Decimal(0) for person in self.participants}`, then run the
    common-items block and the separate-items block. -/
def _calculate_pretax_shares_dict (b : BillSplitModel) : Except PyError (Dict ℚ) :=
  match addCommonShares b (dictFromKeys b.participants 0) with
  | Except.error e => Except.error e
  | Except.ok shares1 => addSeparateShares b shares1

/-- `BillSplitModel._calculate_pretax_shares` (mutates only
    `self._participant_shares`). -/
def _calculate_pretax_shares (b : BillSplitModel) : Except PyError BillSplitModel :=
  match _calculate_pretax_shares_dict b with
  | Except.error e => Except.error e
  | Except.ok d => Except.ok { b with _participant_shares := some d }

/-- `{k: f(k) for k in ks}`: evaluate `f` at each key in order, inserting the
    results; the first exception propagates. -/
def dictCompAux (f : String → Except PyError ℚ) (ks : List String) (d : Dict ℚ) :
    Except PyError (Dict ℚ) :=
  match ks with
  | [] => Except.ok d
  | k :: rest =>
    match f k with
    | Except.error e => Except.error e
    | Except.ok v => dictCompAux f rest (dictSetItem d k v)

/-- The value expression of the tax-share dict comprehension:
    `(self._participant_shares[person] / total_pretax) * total_tax`. -/
def taxShareOf (pd : Dict ℚ) (total_pretax total_tax : ℚ) (person : String) :
    Except PyError ℚ :=
  match dictGetItem pd person with
  | Except.error e => Except.error e
  | Except.ok s =>
    match pyDiv s total_pretax with
    | Except.error e => Except.error e
    | Except.ok q => Except.ok (q * total_tax)

/-- `BillSplitModel.calculate_shares(receipt_data)`: fills the pre-tax cache,
    then builds `self._tax_shares = {person: (shares[person] / total_pretax)
    * total_tax for person in self.participants}`. No guard precedes the
    division by `total_pretax`. -/
def calculate_shares (b : BillSplitModel) (receipt_data : ReceiptModel) :
    Except PyError BillSplitModel :=
  match _calculate_pretax_shares_dict b with
  | Except.error e => Except.error e
  | Except.ok pd =>
    let total_pretax := dictSum pd
    match pyIter receipt_data.taxes_and_fees with
    | Except.error e => Except.error e
    | Except.ok taxes =>
      let total_tax := (taxes.map TaxModel.total).sum
      match dictCompAux (taxShareOf pd total_pretax total_tax) b.participants [] with
      | Except.error e => Except.error e
      | Except.ok td =>
        Except.ok { b with _participant_shares := some pd, _tax_shares := some td }

/-- The state visible to the caller of `split_data.calculate_shares(receipt_data)`:
    the split object and the receipt object. The method body reads
    `receipt_data.taxes_and_fees` but contains no store to the receipt, so its
    state-passing translation returns the receipt component unchanged. -/
structure EngineState where
  split : BillSplitModel
  receipt : ReceiptModel
deriving DecidableEq, Repr

/-- The call `split_data.calculate_shares(receipt_data)` as a transformer of
    the caller-visible state. -/
def calculate_shares_call (s : EngineState) : Except PyError EngineState :=
  match calculate_shares s.split s.receipt with
  | Except.error e => Except.error e
  | Except.ok b' => Except.ok ⟨b', s.receipt⟩

/-- Message of the `ValueError` in the `tax_shares` property. -/
def taxSharesNotCalculatedMsg : String :=
  "Tax shares not calculated. Call calculate_shares first."

/-- Message of the `ValueError` in the `total_shares` property. -/
def sharesNotCalculatedMsg : String :=
  "Shares not calculated. Call calculate_shares first."

/-- The `participant_shares` property: if the pre-tax cache is `None` it is
    silently computed (no guard); the possibly-updated object is returned
    together with the dict the property evaluates to. -/
def participant_shares (b : BillSplitModel) :
    Except PyError (BillSplitModel × Dict ℚ) :=
  match b._participant_shares with
  | some d => Except.ok (b, d)
  | none =>
    match _calculate_pretax_shares_dict b with
    | Except.error e => Except.error e
    | Except.ok d => Except.ok ({ b with _participant_shares := some d }, d)

/-- The `tax_shares` property: raises `ValueError` while the tax cache is
    `None`. -/
def tax_shares (b : BillSplitModel) : Except PyError (Dict ℚ) :=
  match b._tax_shares with
  | some d => Except.ok d
  | none => Except.error (PyError.valueError taxSharesNotCalculatedMsg)

/-- The value expression of the `total_shares` comprehension:
    `self._participant_shares[person] + self._tax_shares[person]`. -/
def totalShareOf (pd td : Dict ℚ) (person : String) : Except PyError ℚ :=
  match dictGetItem pd person with
  | Except.error e => Except.error e
  | Except.ok s =>
    match dictGetItem td person with
    | Except.error e => Except.error e
    | Except.ok t => Except.ok (s + t)

/-- The `total_shares` property: raises `ValueError` if either cache is
    `None`, else `{person: pretax + tax for person in participants}`. -/
def total_shares (b : BillSplitModel) : Except PyError (Dict ℚ) :=
  match b._participant_shares, b._tax_shares with
  | some pd, some td => dictCompAux (totalShareOf pd td) b.participants []
  | _, _ => Except.error (PyError.valueError sharesNotCalculatedMsg)

/-! ## CLI manual-assignment layer (`splitmybill.interface.cli.CLISplitter`) -/

/-- `self.valid_indices = list(range(1, len(self.participants) + 1))`. -/
def validIndices (participants : List String) : List Int :=
  (List.range participants.length).map (fun i => (i : Int) + 1)

/-- Python whitespace recognised by `str.strip()` (the subset relevant to
    keyboard input). -/
def isPyWhitespace (c : Char) : Bool :=
  c = ' ' || c = '\t' || c = '\n' || c = '\r'

/-- `str.strip()`: drop leading and trailing whitespace. -/
def pyStripChars (cs : List Char) : List Char :=
  ((cs.dropWhile isPyWhitespace).reverse.dropWhile isPyWhitespace).reverse

/-- One decimal digit, or `none`. -/
def digitVal (c : Char) : Option Nat :=
  if '0' ≤ c && c ≤ '9' then some (c.toNat - '0'.toNat) else none

/-- Accumulate the value of a nonempty all-digit suffix. -/
def parseDigitsAux (cs : List Char) (acc : Nat) : Option Nat :=
  match cs with
  | [] => some acc
  | c :: rest =>
    match digitVal c with
    | some dd => parseDigitsAux rest (acc * 10 + dd)
    | none => none

/-- `int(s)` on an already-stripped character list: an optional sign followed
    by at least one digit (numeric-literal underscore grouping is not
    modelled; the CLI never feeds it). A malformed string raises
    `ValueError`. -/
def pyIntCore (cs : List Char) : Except PyError Int :=
  match cs with
  | '-' :: rest =>
    match rest with
    | [] => Except.error (PyError.valueError ("invalid literal for int"))
    | _ =>
      match parseDigitsAux rest 0 with
      | some n => Except.ok (-(n : Int))
      | none => Except.error (PyError.valueError ("invalid literal for int"))
  | '+' :: rest =>
    match rest with
    | [] => Except.error (PyError.valueError ("invalid literal for int"))
    | _ =>
      match parseDigitsAux rest 0 with
      | some n => Except.ok (n : Int)
      | none => Except.error (PyError.valueError ("invalid literal for int"))
  | [] => Except.error (PyError.valueError ("invalid literal for int"))
  | _ =>
    match parseDigitsAux cs 0 with
    | some n => Except.ok (n : Int)
    | none => Except.error (PyError.valueError ("invalid literal for int"))

/-- `int(s)`: `int()` itself strips surrounding whitespace. -/
def pyInt (cs : List Char) : Except PyError Int :=
  pyIntCore (pyStripChars cs)

/-- `s.split(c)` on character lists. -/
def splitOnCharAux (cs : List Char) (sep : Char) (acc : List Char) :
    List (List Char) :=
  match cs with
  | [] => [acc.reverse]
  | c :: rest =>
    if c = sep then acc.reverse :: splitOnCharAux rest sep []
    else splitOnCharAux rest sep (c :: acc)

/-- `s.split(c)`. -/
def splitOnChar (cs : List Char) (sep : Char) : List (List Char) :=
  splitOnCharAux cs sep []

/-- `[int(part) for part in parts if part]`, turning the first `ValueError`
    into the exception `_extract_split_string_indices` re-raises. -/
def parseParts (parts : List (List Char)) : Except PyError (List Int) :=
  match parts with
  | [] => Except.ok []
  | p :: rest =>
    if p = [] then parseParts rest
    else
      match pyInt p with
      | Except.error _ =>
        Except.error (PyError.valueError ("Invalid split string format"))
      | Except.ok i =>
        match parseParts rest with
        | Except.error e => Except.error e
        | Except.ok is => Except.ok (i :: is)

/-- `sorted(set(indices))`: unique values in ascending order. -/
def pySortedSet (l : List Int) : List Int :=
  List.insertionSort (fun a b => a ≤ b) l.dedup

/-- `CLISplitter._extract_split_string_indices(split_str)`; `valid_indices`
    is the instance attribute. An empty response means all participants;
    a response with a comma is split on commas and stripped; a response
    without commas is read character by character after removing spaces
    (so "12" is participants 1 and 2); the indices are deduplicated and
    sorted. -/
def _extract_split_string_indices (valid_indices : List Int) (split_str : String) :
    Except PyError (List Int) :=
  if split_str = "" then Except.ok valid_indices
  else
    let parts : List (List Char) :=
      if split_str.data.contains ',' then
        (splitOnChar split_str.data ',').map pyStripChars
      else
        (split_str.data.filter (fun c => c ≠ ' ')).map (fun c => [c])
    match parseParts parts with
    | Except.error e => Except.error e
    | Except.ok indices => Except.ok (pySortedSet indices)

/-- `CLISplitter._is_valid_split_str(split_str)`: an empty response is valid;
    otherwise the extracted indices must be nonempty and all within
    `valid_indices` (a `ValueError` from extraction means invalid, and the
    caller `_get_item_split` re-prompts). -/
def _is_valid_split_str (valid_indices : List Int) (split_str : String) : Bool :=
  if split_str = "" then true
  else
    match _extract_split_string_indices valid_indices split_str with
    | Except.ok indices =>
      (!indices.isEmpty) && indices.all (fun i => valid_indices.contains i)
    | Except.error _ => false

/-- `for idx in split_indices:
    separate_items[self.participants[idx - 1]].append(
    item.model_copy(update={...subtotal: share_amount...}))`. -/
def appendSharesAux (ps : List String) (share : ℚ) (it : ItemModel)
    (indices : List Int) (sep : Dict (List ItemModel)) :
    Except PyError (Dict (List ItemModel)) :=
  match indices with
  | [] => Except.ok sep
  | idx :: rest =>
    match pyListIndex ps (idx - 1) with
    | Except.error e => Except.error e
    | Except.ok person =>
      match dictAppendTo sep person { it with subtotal := share } with
      | Except.error e => Except.error e
      | Except.ok sep' => appendSharesAux ps share it rest sep'

/-- The per-item loop body of `CLISplitter._process_items`: an item whose
    accepted split equals `valid_indices` joins `common_items`; otherwise its
    subtotal is divided by the number of selected indices and one duplicate
    with the divided subtotal is appended per selected participant. -/
def processOneItem (participants : List String) (vi : List Int)
    (acc : List ItemModel × Dict (List ItemModel)) (item : ItemModel)
    (split_indices : List Int) :
    Except PyError (List ItemModel × Dict (List ItemModel)) :=
  if split_indices = vi then
    Except.ok (acc.1 ++ [item], acc.2)
  else
    match pyDiv item.subtotal (split_indices.length : ℚ) with
    | Except.error e => Except.error e
    | Except.ok share_amount =>
      match appendSharesAux participants share_amount item split_indices acc.2 with
      | Except.error e => Except.error e
      | Except.ok sep => Except.ok (acc.1, sep)

/-- Folding `processOneItem` over the receipt's items paired with the
    accepted split string indices for each item. -/
def processItemsAux (participants : List String) (vi : List Int)
    (pairs : List (ItemModel × List Int))
    (acc : List ItemModel × Dict (List ItemModel)) :
    Except PyError (List ItemModel × Dict (List ItemModel)) :=
  match pairs with
  | [] => Except.ok acc
  | (item, c) :: rest =>
    match processOneItem participants vi acc item c with
    | Except.error e => Except.error e
    | Except.ok acc' => processItemsAux participants vi rest acc'

/-- `CLISplitter._process_items(receipt_data)`. The interactive
    `_get_item_split` loop re-prompts until a response passes
    `_is_valid_split_str`; `splits` supplies, in receipt order, the index
    list it returns for each item. `separate_items` starts as
    `{person: [] for person in self.participants}`, the built `BillSplitModel`
    gets `calculate_shares(receipt_data)` run on it and is returned. -/
def _process_items (participants : List String) (receipt_data : ReceiptModel)
    (splits : List (List Int)) : Except PyError BillSplitModel :=
  let vi := validIndices participants
  match pyIter receipt_data.items with
  | Except.error e => Except.error e
  | Except.ok items =>
    match processItemsAux participants vi (items.zip splits)
        ([], dictFromKeys participants []) with
    | Except.error e => Except.error e
    | Except.ok (common_items, separate_items) =>
      let split_data : BillSplitModel :=
        ⟨some common_items, some separate_items, participants, none, none⟩
      calculate_shares split_data receipt_data

/-! ## The `billsplitter` revision's field validators
    (`billsplitter.data_model.receipt.{item,tax}`) -/

/-- One structured record per `logger.warning` call in the validators. -/
inductive Warning where
  | invalidQuantity (item : String)
  | invalidUnitPrice (item : String)
  | invalidSubtotal (item : String)
  | subtotalMismatch (item : String)
  | invalidRate (tax : String)
  | negativeTaxTotal (tax : String)
deriving DecidableEq, Repr

namespace Billsplitter

/-- `billsplitter.data_model.receipt.item.ItemModel`: `quantity` is
    `int | None` in this revision. -/
structure ItemModel where
  name : String
  quantity : Option Int
  unit_price : Option ℚ
  subtotal : ℚ
deriving DecidableEq, Repr

/-- `billsplitter.data_model.receipt.tax.TaxModel`. -/
structure TaxModel where
  name : String
  rate : Option Int
  total : ℚ
deriving DecidableEq, Repr

/-- `ItemModel.validate_item_fields` (pydantic `model_validator`,
    `mode="after"`): four plausibility checks that only log warnings. The
    mismatch check is guarded by `all([self.quantity, self.unit_price])`,
    which is false when either is `None` **or zero** (Python truthiness). -/
def ItemModel.validate_item_fields (it : ItemModel) :
    Except PyError (ItemModel × List Warning) :=
  let w1 :=
    match it.quantity with
    | some q => if q ≤ 0 then [Warning.invalidQuantity it.name] else []
    | none => []
  let w2 :=
    match it.unit_price with
    | some u => if u ≤ 0 then [Warning.invalidUnitPrice it.name] else []
    | none => []
  let w3 := if it.subtotal ≤ 0 then [Warning.invalidSubtotal it.name] else []
  let w4 :=
    match it.quantity, it.unit_price with
    | some q, some u =>
      if q ≠ 0 ∧ u ≠ 0 then
        if |(q : ℚ) * u - it.subtotal| > 1 / 100 then
          [Warning.subtotalMismatch it.name]
        else []
      else []
    | _, _ => []
  Except.ok (it, w1 ++ w2 ++ w3 ++ w4)

/-- `TaxModel.validate_tax_fields` (pydantic `model_validator`,
    `mode="after"`). The rate check only logs. The negative-total branch
    builds its warning message with the f-string
    `f"Tax ... has negative amount: {self.amount}"`, but `TaxModel` has no
    attribute `amount` (the field is `total`), so evaluating the message
    raises `AttributeError` before `logger.warning` is ever called and
    pydantic construction of any negative-total tax fails. -/
def TaxModel.validate_tax_fields (t : TaxModel) :
    Except PyError (TaxModel × List Warning) :=
  let w1 :=
    match t.rate with
    | some r => if ¬(0 ≤ r ∧ r ≤ 100) then [Warning.invalidRate t.name] else []
    | none => []
  if t.total < 0 then Except.error (PyError.attributeError ("amount"))
  else Except.ok (t, w1)

end Billsplitter

/-- `sum(item.subtotal for item in l)`. -/
def itemsSubtotal (l : List ItemModel) : ℚ :=
  (l.map ItemModel.subtotal).sum

/-- Total money recorded in a `separate_items` dict. -/
def sepWSum (d : Dict (List ItemModel)) : ℚ :=
  dictWSum itemsSubtotal d

/-- The separate-items money credited to key `j` by iterating `entries`. -/
def sepFilterSum (entries : List (String × List ItemModel)) (j : String) : ℚ :=
  ((entries.filter (fun e => e.1 = j)).map (fun e => itemsSubtotal e.2)).sum

/-- The spec's "sum of all common_items' subtotals" (0 when absent). -/
def commonSubtotal (b : BillSplitModel) : ℚ :=
  match b.common_items with
  | some items => itemsSubtotal items
  | none => 0

/-- The spec's "sum of that participant's separate_items' subtotals"
    (0 when absent or not listed). -/
def separateSubtotal (b : BillSplitModel) (person : String) : ℚ :=
  match b.separate_items with
  | some sep => sepFilterSum sep person
  | none => 0

/-- Total money recorded in `separate_items` over all entries. -/
def sepEntriesTotal (b : BillSplitModel) : ℚ :=
  match b.separate_items with
  | some sep => (sep.map (fun e => itemsSubtotal e.2)).sum
  | none => 0

/-- The receipt's total tax
    (`sum(tax.total for tax in receipt_data.taxes_and_fees)` when present). -/
def receiptTaxTotal (r : ReceiptModel) : ℚ :=
  match r.taxes_and_fees with
  | some taxes => (taxes.map TaxModel.total).sum
  | none => 0

/-! ## Concrete inputs used by witnesses and counterexamples
    (spec E2E Scenario A and the degenerate cases) -/

/-- Scenario A: Apples, qty 2 at 5.00, subtotal 10.00. -/
def applesItem : ItemModel := ⟨"Apples", some 2, some 5, 10⟩

/-- Scenario A: Bread, subtotal 4.00. -/
def breadItem : ItemModel := ⟨"Bread", none, none, 4⟩

/-- Scenario A: Sales Tax, 1.40. -/
def salesTax : TaxModel := ⟨"Sales Tax", none, 14 / 10⟩

/-- Scenario A receipt: subtotal 14.00, total 15.40. -/
def scenarioReceipt : ReceiptModel :=
  ⟨some [applesItem, breadItem], some [salesTax], some 14, some (154 / 10)⟩

/-- Expected pre-tax shares for scenario A. -/
def pdA : Dict ℚ := [("Alice", 9), ("Bob", 5)]

/-- Expected tax shares for scenario A. -/
def tdA : Dict ℚ := [("Alice", 9 / 10), ("Bob", 1 / 2)]

/-- Scenario A split: Apples common, Bread charged to Alice alone. -/
def scenarioSplit : BillSplitModel :=
  ⟨some [applesItem], some [("Alice", [breadItem])], ["Alice", "Bob"], none, none⟩

/-- Scenario A split after `calculate_shares`. -/
def scenarioSplitDone : BillSplitModel :=
  ⟨some [applesItem], some [("Alice", [breadItem])], ["Alice", "Bob"],
    some pdA, some tdA⟩

/-- Scenario A split as `_process_items` builds it from the accepted
    responses "" (common) and "1" (Alice): Bob keeps an empty list. -/
def procSplitDone : BillSplitModel :=
  ⟨some [applesItem], some [("Alice", [breadItem]), ("Bob", [])], ["Alice", "Bob"],
    some pdA, some tdA⟩

/-- A split with two participants and no items at all: every pre-tax share is
    zero. -/
def zeroPretaxSplit : BillSplitModel := ⟨none, none, ["Alice", "Bob"], none, none⟩

/-- A receipt whose tax list is present but empty. -/
def emptyTaxReceipt : ReceiptModel := ⟨none, some [], none, none⟩

/-- A 5.00 line item. -/
def promoItem : ItemModel := ⟨"Promo", none, none, 5⟩

/-- A -5.00 line item (a credit), cancelling `promoItem`. -/
def rebateItem : ItemModel := ⟨"Rebate", none, none, -5⟩

/-- A split whose separate items cancel out: nonzero entries, zero total
    pre-tax share. -/
def cancellingSplit : BillSplitModel :=
  ⟨none, some [("Carol", [promoItem]), ("Dan", [rebateItem])], ["Carol", "Dan"],
    none, none⟩

/-! ## Dictionary lemmas -/

theorem dictGet?_setItem_self {α : Type} (d : Dict α) (k : String) (v : α) :
    dictGet? (dictSetItem d k v) k = some v := by
  induction d with
  | nil => simp [dictGet?, dictSetItem]
  | cons e rest ih =>
    obtain ⟨k', v'⟩ := e
    by_cases h : k' = k
    · simp [dictGet?, dictSetItem, h]
    · simp [dictGet?, dictSetItem, h, ih]

theorem dictGet?_setItem_ne {α : Type} (d : Dict α) (k k' : String) (v : α)
    (h : k' ≠ k) : dictGet? (dictSetItem d k v) k' = dictGet? d k' := by
  have h' : k ≠ k' := fun hh => h hh.symm
  induction d with
  | nil => simp [dictGet?, dictSetItem, h']
  | cons e rest ih =>
    obtain ⟨k₀, v₀⟩ := e
    by_cases h₀ : k₀ = k
    · subst h₀
      simp [dictGet?, dictSetItem, h']
    · simp only [dictSetItem, if_neg h₀, dictGet?]
      by_cases h₁ : k₀ = k'
      · simp [h₁]
      · simp [h₁, ih]

theorem dictWSum_setItem {α : Type} (f : α → ℚ) (d : Dict α) (k : String)
    (old v : α) (h : dictGet? d k = some old) :
    dictWSum f (dictSetItem d k v) = dictWSum f d - f old + f v := by
  induction d with
  | nil => simp [dictGet?] at h
  | cons e rest ih =>
    obtain ⟨k₀, v₀⟩ := e
    by_cases h₀ : k₀ = k
    · simp only [dictGet?, if_pos h₀] at h
      obtain rfl : v₀ = old := by injection h
      simp only [dictSetItem, if_pos h₀, dictWSum, List.map_cons, List.sum_cons]
      ring
    · simp only [dictGet?, if_neg h₀] at h
      simp only [dictSetItem, if_neg h₀, dictWSum, List.map_cons, List.sum_cons]
      have := ih h
      simp only [dictWSum] at this
      rw [this]
      ring

theorem mem_dictSetItem {α : Type} (d : Dict α) (k : String) (v : α)
    (e : String × α) (h : e ∈ dictSetItem d k v) : e ∈ d ∨ e = (k, v) := by
  induction d with
  | nil => simp [dictSetItem] at h; simp [h]
  | cons e₀ rest ih =>
    obtain ⟨k₀, v₀⟩ := e₀
    by_cases h₀ : k₀ = k
    · simp only [dictSetItem, if_pos h₀] at h
      rcases List.mem_cons.mp h with h1 | h1
      · right; rw [h1, h₀]
      · left; exact List.mem_cons_of_mem _ h1
    · simp only [dictSetItem, if_neg h₀] at h
      rcases List.mem_cons.mp h with h1 | h1
      · left; exact h1 ▸ List.mem_cons_self _ _
      · rcases ih h1 with h2 | h2
        · left; exact List.mem_cons_of_mem _ h2
        · right; exact h2

theorem dictWSum_eq_zero {α : Type} (f : α → ℚ) (d : Dict α)
    (h : ∀ e ∈ d, f e.2 = 0) : dictWSum f d = 0 := by
  induction d with
  | nil => simp [dictWSum]
  | cons e rest ih =>
    simp only [dictWSum, List.map_cons, List.sum_cons]
    rw [h e (List.mem_cons_self _ _)]
    simpa [dictWSum] using ih (fun e' he' => h e' (List.mem_cons_of_mem _ he'))

theorem mem_dictFromKeysAux {α : Type} (ks : List String) (d : Dict α) (v : α)
    (e : String × α) (h : e ∈ dictFromKeysAux ks d v) : e ∈ d ∨ e.2 = v := by
  induction ks generalizing d with
  | nil => simp [dictFromKeysAux] at h; simp [h]
  | cons k rest ih =>
    simp only [dictFromKeysAux] at h
    rcases ih _ h with h1 | h1
    · rcases mem_dictSetItem _ _ _ _ h1 with h2 | h2
      · left; exact h2
      · right; rw [h2]
    · right; exact h1

theorem dictGet?_fromKeysAux {α : Type} (ks : List String) (d : Dict α) (v : α)
    (j : String) :
    dictGet? (dictFromKeysAux ks d v) j = if j ∈ ks then some v else dictGet? d j := by
  induction ks generalizing d with
  | nil => simp [dictFromKeysAux]
  | cons k rest ih =>
    simp only [dictFromKeysAux]
    rw [ih]
    by_cases hj : j ∈ rest
    · simp [hj, List.mem_cons]
    · by_cases hk : j = k
      · simp [hj, hk, dictGet?_setItem_self]
      · simp [hj, hk, dictGet?_setItem_ne _ _ _ _ hk]

theorem dictGet?_fromKeys {α : Type} (ks : List String) (v : α) (j : String) :
    dictGet? (dictFromKeys ks v) j = if j ∈ ks then some v else none := by
  simp [dictFromKeys, dictGet?_fromKeysAux, dictGet?]

theorem dictSum_fromKeys_zero (ks : List String) :
    dictSum (dictFromKeys ks (0 : ℚ)) = 0 := by
  refine dictWSum_eq_zero _ _ (fun e he => ?_)
  rcases mem_dictFromKeysAux _ _ _ _ he with h | h
  · simp at h
  · exact h

theorem sepWSum_fromKeys_nil (ks : List String) :
    sepWSum (dictFromKeys ks ([] : List ItemModel)) = 0 := by
  refine dictWSum_eq_zero _ _ (fun e he => ?_)
  rcases mem_dictFromKeysAux _ _ _ _ he with h | h
  · simp at h
  · rw [h]; simp [itemsSubtotal]

theorem dictAddTo_ok_sum (d : Dict ℚ) (k : String) (v : ℚ) (d' : Dict ℚ)
    (h : dictAddTo d k v = Except.ok d') : dictSum d' = dictSum d + v := by
  unfold dictAddTo at h
  cases hg : dictGet? d k with
  | none => rw [hg] at h; exact absurd h (by simp)
  | some old =>
    rw [hg] at h
    obtain rfl : dictSetItem d k (old + v) = d' := by injection h
    unfold dictSum
    rw [dictWSum_setItem _ _ _ _ _ hg]
    ring

theorem dictAddTo_ok_get (d : Dict ℚ) (k : String) (v : ℚ) (d' : Dict ℚ)
    (h : dictAddTo d k v = Except.ok d') (j : String) :
    dictGet? d' j = (dictGet? d j).map (fun x => if j = k then x + v else x) := by
  unfold dictAddTo at h
  cases hg : dictGet? d k with
  | none => rw [hg] at h; exact absurd h (by simp)
  | some old =>
    rw [hg] at h
    obtain rfl : dictSetItem d k (old + v) = d' := by injection h
    by_cases hj : j = k
    · subst hj
      rw [dictGet?_setItem_self, hg]
      simp
    · rw [dictGet?_setItem_ne _ _ _ _ hj]
      cases dictGet? d j <;> simp [hj]

theorem dictAddTo_total (d : Dict ℚ) (k : String) (v : ℚ)
    (h : (dictGet? d k).isSome) : ∃ d', dictAddTo d k v = Except.ok d' := by
  unfold dictAddTo
  cases hg : dictGet? d k with
  | none => rw [hg] at h; simp at h
  | some old => exact ⟨_, rfl⟩

theorem dictAppendTo_ok_sum (d : Dict (List ItemModel)) (k : String)
    (x : ItemModel) (d' : Dict (List ItemModel))
    (h : dictAppendTo d k x = Except.ok d') :
    sepWSum d' = sepWSum d + x.subtotal := by
  unfold dictAppendTo at h
  cases hg : dictGet? d k with
  | none => rw [hg] at h; exact absurd h (by simp)
  | some old =>
    rw [hg] at h
    obtain rfl : dictSetItem d k (old ++ [x]) = d' := by injection h
    unfold sepWSum
    rw [dictWSum_setItem _ _ _ _ _ hg]
    simp [itemsSubtotal]
    ring

theorem dictAppendTo_ok_get (d : Dict (List ItemModel)) (k : String)
    (x : ItemModel) (d' : Dict (List ItemModel))
    (h : dictAppendTo d k x = Except.ok d') (j : String) :
    dictGet? d' j = (dictGet? d j).map (fun l => if j = k then l ++ [x] else l) := by
  unfold dictAppendTo at h
  cases hg : dictGet? d k with
  | none => rw [hg] at h; exact absurd h (by simp)
  | some old =>
    rw [hg] at h
    obtain rfl : dictSetItem d k (old ++ [x]) = d' := by injection h
    by_cases hj : j = k
    · subst hj
      rw [dictGet?_setItem_self, hg]
      simp
    · rw [dictGet?_setItem_ne _ _ _ _ hj]
      cases dictGet? d j <;> simp [hj]

theorem dictAppendTo_total (d : Dict (List ItemModel)) (k : String)
    (x : ItemModel) (h : (dictGet? d k).isSome) :
    ∃ d', dictAppendTo d k x = Except.ok d' := by
  unfold dictAppendTo
  cases hg : dictGet? d k with
  | none => rw [hg] at h; simp at h
  | some old => exact ⟨_, rfl⟩

/-! ## Lemmas about the pre-tax accumulation loops -/

theorem addAllAux_ok_sum (ps : List String) (v : ℚ) (d d' : Dict ℚ)
    (h : addAllAux ps v d = Except.ok d') :
    dictSum d' = dictSum d + ps.length * v := by
  induction ps generalizing d with
  | nil =>
    unfold addAllAux at h
    obtain rfl : d = d' := by injection h
    simp
  | cons p rest ih =>
    unfold addAllAux at h
    cases ha : dictAddTo d p v with
    | error e => rw [ha] at h; exact absurd h (by simp)
    | ok d₁ =>
      rw [ha] at h
      have := ih d₁ h
      rw [this, dictAddTo_ok_sum _ _ _ _ ha]
      simp only [List.length_cons]
      push_cast
      ring

theorem addAllAux_ok_get (ps : List String) (v : ℚ) (d d' : Dict ℚ)
    (h : addAllAux ps v d = Except.ok d') (j : String) :
    dictGet? d' j = (dictGet? d j).map (fun x => x + (ps.count j : ℚ) * v) := by
  induction ps generalizing d with
  | nil =>
    unfold addAllAux at h
    obtain rfl : d = d' := by injection h
    cases dictGet? d j <;> simp
  | cons p rest ih =>
    unfold addAllAux at h
    cases ha : dictAddTo d p v with
    | error e => rw [ha] at h; exact absurd h (by simp)
    | ok d₁ =>
      rw [ha] at h
      rw [ih d₁ h, dictAddTo_ok_get _ _ _ _ ha j]
      by_cases hj : j = p
      · subst hj
        cases dictGet? d j <;> simp [List.count_cons] <;> push_cast <;> ring
      · cases dictGet? d j <;> simp [List.count_cons, hj]

theorem addAllAux_total (ps : List String) (v : ℚ) (d : Dict ℚ)
    (h : ∀ p ∈ ps, (dictGet? d p).isSome) :
    ∃ d', addAllAux ps v d = Except.ok d' := by
  induction ps generalizing d with
  | nil => exact ⟨d, rfl⟩
  | cons p rest ih =>
    obtain ⟨d₁, hd₁⟩ := dictAddTo_total d p v (h p (List.mem_cons_self _ _))
    have hrest : ∀ q ∈ rest, (dictGet? d₁ q).isSome := by
      intro q hq
      have hthis := h q (List.mem_cons_of_mem _ hq)
      rw [dictAddTo_ok_get _ _ _ _ hd₁ q]
      cases hgq : dictGet? d q
      · rw [hgq] at hthis; simp at hthis
      · simp
    obtain ⟨d', hd'⟩ := ih d₁ hrest
    refine ⟨d', ?_⟩
    unfold addAllAux
    rw [hd₁]
    exact hd'

theorem addSeparateAux_ok_sum (entries : List (String × List ItemModel))
    (d d' : Dict ℚ) (h : addSeparateAux entries d = Except.ok d') :
    dictSum d' = dictSum d + (entries.map (fun e => itemsSubtotal e.2)).sum := by
  induction entries generalizing d with
  | nil =>
    unfold addSeparateAux at h
    obtain rfl : d = d' := by injection h
    simp
  | cons e rest ih =>
    unfold addSeparateAux at h
    cases ha : dictAddTo d e.1 ((e.2.map ItemModel.subtotal).sum) with
    | error e' => rw [ha] at h; exact absurd h (by simp)
    | ok d₁ =>
      rw [ha] at h
      rw [ih d₁ h, dictAddTo_ok_sum _ _ _ _ ha]
      simp [itemsSubtotal]
      ring

theorem addSeparateAux_ok_get (entries : List (String × List ItemModel))
    (d d' : Dict ℚ) (h : addSeparateAux entries d = Except.ok d') (j : String) :
    dictGet? d' j = (dictGet? d j).map (fun x => x + sepFilterSum entries j) := by
  induction entries generalizing d with
  | nil =>
    unfold addSeparateAux at h
    obtain rfl : d = d' := by injection h
    cases dictGet? d j <;> simp [sepFilterSum]
  | cons e rest ih =>
    unfold addSeparateAux at h
    cases ha : dictAddTo d e.1 ((e.2.map ItemModel.subtotal).sum) with
    | error e' => rw [ha] at h; exact absurd h (by simp)
    | ok d₁ =>
      rw [ha] at h
      rw [ih d₁ h, dictAddTo_ok_get _ _ _ _ ha j]
      by_cases hj : j = e.1
      · cases dictGet? d j <;>
          simp [sepFilterSum, List.filter_cons, hj, itemsSubtotal] <;> ring
      · have hj' : ¬(e.1 = j) := fun hh => hj hh.symm
        cases dictGet? d j <;> simp [sepFilterSum, List.filter_cons, hj, hj']

theorem addSeparateAux_total (entries : List (String × List ItemModel))
    (d : Dict ℚ) (h : ∀ e ∈ entries, (dictGet? d e.1).isSome) :
    ∃ d', addSeparateAux entries d = Except.ok d' := by
  induction entries generalizing d with
  | nil => exact ⟨d, rfl⟩
  | cons e rest ih =>
    obtain ⟨d₁, hd₁⟩ :=
      dictAddTo_total d e.1 ((e.2.map ItemModel.subtotal).sum)
        (h e (List.mem_cons_self _ _))
    have hrest : ∀ e' ∈ rest, (dictGet? d₁ e'.1).isSome := by
      intro e' he'
      have hthis := h e' (List.mem_cons_of_mem _ he')
      rw [dictAddTo_ok_get _ _ _ _ hd₁ e'.1]
      cases hge : dictGet? d e'.1
      · rw [hge] at hthis; simp at hthis
      · simp
    obtain ⟨d', hd'⟩ := ih d₁ hrest
    refine ⟨d', ?_⟩
    unfold addSeparateAux
    rw [hd₁]
    exact hd'

/-! ## Lemmas about dict comprehensions -/

theorem dictCompAux_ok_notmem (f : String → Except PyError ℚ) (ks : List String)
    (d0 d : Dict ℚ) (h : dictCompAux f ks d0 = Except.ok d) (k : String)
    (hk : k ∉ ks) : dictGet? d k = dictGet? d0 k := by
  induction ks generalizing d0 with
  | nil =>
    unfold dictCompAux at h
    obtain rfl : d0 = d := by injection h
    rfl
  | cons a rest ih =>
    unfold dictCompAux at h
    cases hf : f a with
    | error e => rw [hf] at h; exact absurd h (by simp)
    | ok v =>
      rw [hf] at h
      have hka : k ≠ a := fun hh => hk (hh ▸ List.mem_cons_self _ _)
      have hkr : k ∉ rest := fun hh => hk (List.mem_cons_of_mem _ hh)
      rw [ih _ h hkr, dictGet?_setItem_ne _ _ _ _ hka]

theorem dictCompAux_ok_mem (f : String → Except PyError ℚ) (ks : List String)
    (d0 d : Dict ℚ) (h : dictCompAux f ks d0 = Except.ok d) (k : String)
    (hk : k ∈ ks) : ∃ v, f k = Except.ok v ∧ dictGet? d k = some v := by
  induction ks generalizing d0 with
  | nil => simp at hk
  | cons a rest ih =>
    unfold dictCompAux at h
    cases hf : f a with
    | error e => rw [hf] at h; exact absurd h (by simp)
    | ok v =>
      rw [hf] at h
      by_cases hkr : k ∈ rest
      · exact ih _ h hkr
      · have hka : k = a := by
          rcases List.mem_cons.mp hk with h1 | h1
          · exact h1
          · exact absurd h1 hkr
        subst hka
        refine ⟨v, hf, ?_⟩
        rw [dictCompAux_ok_notmem _ _ _ _ h _ hkr, dictGet?_setItem_self]

/-! ## Characterisation of `_calculate_pretax_shares` -/

theorem addCommonShares_ok_get (b : BillSplitModel) (shares d1 : Dict ℚ)
    (h : addCommonShares b shares = Except.ok d1) (j : String) :
    dictGet? d1 j = (dictGet? shares j).map
      (fun x => x + (b.participants.count j : ℚ)
        * (commonSubtotal b / (b.participants.length : ℚ))) := by
  unfold addCommonShares at h
  split at h
  next items heq =>
    split at h
    next hi =>
      obtain rfl : shares = d1 := by injection h
      cases hg : dictGet? shares j <;> simp [commonSubtotal, heq, hi, itemsSubtotal]
    next hi =>
      split at h
      next e hdiv => exact absurd h (by simp)
      next cpp hdiv =>
        unfold pyDiv at hdiv
        split at hdiv
        next hn => exact absurd hdiv (by simp)
        next hn =>
          obtain rfl : (items.map ItemModel.subtotal).sum
              / (b.participants.length : ℚ) = cpp := by injection hdiv
          rw [addAllAux_ok_get _ _ _ _ h j]
          simp [commonSubtotal, heq, itemsSubtotal]
  next heq =>
    obtain rfl : shares = d1 := by injection h
    cases hg : dictGet? shares j <;> simp [commonSubtotal, heq]

theorem addCommonShares_ok_sum (b : BillSplitModel) (shares d1 : Dict ℚ)
    (h : addCommonShares b shares = Except.ok d1) :
    dictSum d1 = dictSum shares + commonSubtotal b := by
  unfold addCommonShares at h
  split at h
  next items heq =>
    split at h
    next hi =>
      obtain rfl : shares = d1 := by injection h
      simp [commonSubtotal, heq, hi, itemsSubtotal]
    next hi =>
      split at h
      next e hdiv => exact absurd h (by simp)
      next cpp hdiv =>
        unfold pyDiv at hdiv
        split at hdiv
        next hn => exact absurd hdiv (by simp)
        next hn =>
          obtain rfl : (items.map ItemModel.subtotal).sum
              / (b.participants.length : ℚ) = cpp := by injection hdiv
          rw [addAllAux_ok_sum _ _ _ _ h]
          simp only [commonSubtotal, heq, itemsSubtotal]
          rw [mul_div_cancel₀ _ hn]
  next heq =>
    obtain rfl : shares = d1 := by injection h
    simp [commonSubtotal, heq]

theorem addCommonShares_total (b : BillSplitModel) (shares : Dict ℚ)
    (hne : b.participants ≠ [])
    (hkeys : ∀ p ∈ b.participants, (dictGet? shares p).isSome) :
    ∃ d1, addCommonShares b shares = Except.ok d1 := by
  unfold addCommonShares
  cases hc : b.common_items with
  | none => exact ⟨shares, rfl⟩
  | some items =>
    by_cases hi : items = []
    · simp only [hi, if_pos]
      exact ⟨shares, rfl⟩
    · simp only [hi, if_neg]
      unfold pyDiv
      have hn : (b.participants.length : ℚ) ≠ 0 := by
        simp [List.length_eq_zero, hne]
      rw [if_neg hn]
      exact addAllAux_total _ _ _ hkeys

theorem addSeparateShares_ok_get (b : BillSplitModel) (shares d1 : Dict ℚ)
    (h : addSeparateShares b shares = Except.ok d1) (j : String) :
    dictGet? d1 j = (dictGet? shares j).map (fun x => x + separateSubtotal b j) := by
  unfold addSeparateShares at h
  split at h
  next sep heq =>
    split at h
    next hi =>
      obtain rfl : shares = d1 := by injection h
      cases hg : dictGet? shares j <;> simp [separateSubtotal, heq, hi, sepFilterSum]
    next hi =>
      rw [addSeparateAux_ok_get _ _ _ h j]
      simp [separateSubtotal, heq]
  next heq =>
    obtain rfl : shares = d1 := by injection h
    cases hg : dictGet? shares j <;> simp [separateSubtotal, heq]

theorem addSeparateShares_ok_sum (b : BillSplitModel) (shares d1 : Dict ℚ)
    (h : addSeparateShares b shares = Except.ok d1) :
    dictSum d1 = dictSum shares + sepEntriesTotal b := by
  unfold addSeparateShares at h
  split at h
  next sep heq =>
    split at h
    next hi =>
      obtain rfl : shares = d1 := by injection h
      simp [sepEntriesTotal, heq, hi]
    next hi =>
      rw [addSeparateAux_ok_sum _ _ _ h]
      simp [sepEntriesTotal, heq]
  next heq =>
    obtain rfl : shares = d1 := by injection h
    simp [sepEntriesTotal, heq]

theorem addSeparateShares_total (b : BillSplitModel) (shares : Dict ℚ)
    (hkeys : ∀ k ∈ sepKeys b, (dictGet? shares k).isSome) :
    ∃ d1, addSeparateShares b shares = Except.ok d1 := by
  unfold addSeparateShares
  cases hs : b.separate_items with
  | none => exact ⟨shares, rfl⟩
  | some sep =>
    by_cases hi : sep = []
    · simp only [hi, if_pos]
      exact ⟨shares, rfl⟩
    · simp only [hi, if_neg]
      refine addSeparateAux_total _ _ (fun e he => ?_)
      refine hkeys e.1 ?_
      simp only [sepKeys, hs]
      exact List.mem_map.mpr ⟨e, he, rfl⟩

/-- Master value characterisation: after a successful
    `_calculate_pretax_shares`, every key's entry is the common per-head
    quotient (scaled by the key's multiplicity in `participants`) plus the
    separate-items money credited to it, and no other key is present. -/
theorem pretax_ok_get (b : BillSplitModel) (pd : Dict ℚ)
    (h : _calculate_pretax_shares_dict b = Except.ok pd) (j : String) :
    dictGet? pd j =
      if j ∈ b.participants then
        some ((b.participants.count j : ℚ)
          * (commonSubtotal b / (b.participants.length : ℚ))
          + separateSubtotal b j)
      else none := by
  unfold _calculate_pretax_shares_dict at h
  cases hcm : addCommonShares b (dictFromKeys b.participants 0) with
  | error e => rw [hcm] at h; exact absurd h (by simp)
  | ok shares1 =>
    rw [hcm] at h
    rw [addSeparateShares_ok_get _ _ _ h j, addCommonShares_ok_get _ _ _ hcm j,
      dictGet?_fromKeys]
    by_cases hj : j ∈ b.participants
    · simp [hj]
    · simp [hj]

theorem pretax_ok_isSome (b : BillSplitModel) (pd : Dict ℚ)
    (h : _calculate_pretax_shares_dict b = Except.ok pd) (j : String)
    (hj : j ∈ b.participants) : (dictGet? pd j).isSome := by
  rw [pretax_ok_get _ _ h j, if_pos hj]
  rfl

/-- Sum characterisation: a successful `_calculate_pretax_shares` conserves
    money — the dict's values add up to all common money plus all
    separate-items money. -/
theorem pretax_ok_sum (b : BillSplitModel) (pd : Dict ℚ)
    (h : _calculate_pretax_shares_dict b = Except.ok pd) :
    dictSum pd = commonSubtotal b + sepEntriesTotal b := by
  unfold _calculate_pretax_shares_dict at h
  cases hcm : addCommonShares b (dictFromKeys b.participants 0) with
  | error e => rw [hcm] at h; exact absurd h (by simp)
  | ok shares1 =>
    rw [hcm] at h
    rw [addSeparateShares_ok_sum _ _ _ h, addCommonShares_ok_sum _ _ _ hcm,
      dictSum_fromKeys_zero]
    ring

/-- Totality: on a split with a nonempty participant list whose
    `separate_items` keys all belong to `participants`, the pre-tax
    computation completes without an exception. -/
theorem pretax_total (b : BillSplitModel) (hne : b.participants ≠ [])
    (hkeys : ∀ k ∈ sepKeys b, k ∈ b.participants) :
    ∃ pd, _calculate_pretax_shares_dict b = Except.ok pd := by
  have hbase : ∀ p ∈ b.participants,
      (dictGet? (dictFromKeys b.participants (0 : ℚ)) p).isSome := by
    intro p hp
    rw [dictGet?_fromKeys, if_pos hp]
    rfl
  obtain ⟨d1, hd1⟩ := addCommonShares_total b _ hne hbase
  have hkeys1 : ∀ k ∈ sepKeys b, (dictGet? d1 k).isSome := by
    intro k hk
    rw [addCommonShares_ok_get _ _ _ hd1 k]
    have := hbase k (hkeys k hk)
    cases hg : dictGet? (dictFromKeys b.participants (0 : ℚ)) k
    · rw [hg] at this; simp at this
    · simp
  obtain ⟨pd, hpd⟩ := addSeparateShares_total b d1 hkeys1
  refine ⟨pd, ?_⟩
  unfold _calculate_pretax_shares_dict
  rw [hd1]
  exact hpd

/-! ## Structure of a successful `calculate_shares` -/

theorem calculate_shares_ok_elim (b : BillSplitModel) (r : ReceiptModel)
    (b' : BillSplitModel) (h : calculate_shares b r = Except.ok b') :
    ∃ pd taxes td,
      _calculate_pretax_shares_dict b = Except.ok pd ∧
      r.taxes_and_fees = some taxes ∧
      dictCompAux (taxShareOf pd (dictSum pd) ((taxes.map TaxModel.total).sum))
        b.participants [] = Except.ok td ∧
      b' = { b with _participant_shares := some pd, _tax_shares := some td } := by
  unfold calculate_shares at h
  split at h
  next e heq => exact absurd h (by simp)
  next pd hpd =>
    split at h
    next e hit => exact absurd h (by simp)
    next taxes hit =>
      dsimp only [] at h
      split at h
      next e hcomp => exact absurd h (by simp)
      next td hcomp =>
        refine ⟨pd, taxes, td, hpd, ?_, hcomp, ?_⟩
        · unfold pyIter at hit
          cases hr : r.taxes_and_fees with
          | none => rw [hr] at hit; exact absurd hit (by simp)
          | some l =>
            rw [hr] at hit
            obtain rfl : l = taxes := by injection hit
            rfl
        · injection h with h'
          exact h'.symm

/-! ## Conservation through `_process_items` -/

theorem appendSharesAux_ok_sum (ps : List String) (share : ℚ) (it : ItemModel)
    (idxs : List Int) (sep sep' : Dict (List ItemModel))
    (h : appendSharesAux ps share it idxs sep = Except.ok sep') :
    sepWSum sep' = sepWSum sep + idxs.length * share := by
  induction idxs generalizing sep with
  | nil =>
    unfold appendSharesAux at h
    obtain rfl : sep = sep' := by injection h
    simp
  | cons idx rest ih =>
    unfold appendSharesAux at h
    split at h
    next e hp => exact absurd h (by simp)
    next person hp =>
      split at h
      next e ha => exact absurd h (by simp)
      next sep₁ ha =>
        rw [ih _ h, dictAppendTo_ok_sum _ _ _ _ ha]
        simp only [List.length_cons]
        push_cast
        ring

theorem processOneItem_ok_sum (participants : List String) (vi : List Int)
    (acc : List ItemModel × Dict (List ItemModel)) (item : ItemModel)
    (c : List Int) (acc' : List ItemModel × Dict (List ItemModel))
    (h : processOneItem participants vi acc item c = Except.ok acc') :
    itemsSubtotal acc'.1 + sepWSum acc'.2
      = itemsSubtotal acc.1 + sepWSum acc.2 + item.subtotal := by
  unfold processOneItem at h
  split at h
  · obtain rfl : (acc.1 ++ [item], acc.2) = acc' := by injection h
    simp [itemsSubtotal]
    ring
  · split at h
    next e hdiv => exact absurd h (by simp)
    next share hdiv =>
      unfold pyDiv at hdiv
      split at hdiv
      next hn => exact absurd hdiv (by simp)
      next hn =>
        obtain rfl : item.subtotal / (c.length : ℚ) = share := by injection hdiv
        split at h
        next e ha => exact absurd h (by simp)
        next sep' ha =>
          obtain rfl : (acc.1, sep') = acc' := by injection h
          rw [appendSharesAux_ok_sum _ _ _ _ _ _ ha]
          rw [mul_div_cancel₀ _ hn]
          ring

theorem processItemsAux_ok_sum (participants : List String) (vi : List Int)
    (pairs : List (ItemModel × List Int))
    (acc acc' : List ItemModel × Dict (List ItemModel))
    (h : processItemsAux participants vi pairs acc = Except.ok acc') :
    itemsSubtotal acc'.1 + sepWSum acc'.2
      = itemsSubtotal acc.1 + sepWSum acc.2
        + (pairs.map (fun pr => pr.1.subtotal)).sum := by
  induction pairs generalizing acc with
  | nil =>
    unfold processItemsAux at h
    obtain rfl : acc = acc' := by injection h
    simp
  | cons pr rest ih =>
    unfold processItemsAux at h
    split at h
    next e hone => exact absurd h (by simp)
    next acc₁ hone =>
      rw [ih _ h, processOneItem_ok_sum _ _ _ _ _ _ hone]
      simp
      ring

/-! ## Concrete evaluations shared by witnesses -/

theorem scenario_pretax :
    _calculate_pretax_shares_dict scenarioSplit = Except.ok pdA := by
  norm_num +decide [_calculate_pretax_shares_dict, addCommonShares, addSeparateShares,
    addAllAux, addSeparateAux, dictAddTo, dictGet?, dictSetItem, dictFromKeys,
    dictFromKeysAux, pyDiv, scenarioSplit, applesItem, breadItem, pdA]

theorem scenario_calc :
    calculate_shares scenarioSplit scenarioReceipt = Except.ok scenarioSplitDone := by
  norm_num +decide [calculate_shares, _calculate_pretax_shares_dict, addCommonShares,
    addSeparateShares, addAllAux, addSeparateAux, dictAddTo, dictGet?, dictSetItem,
    dictFromKeys, dictFromKeysAux, pyIter, pyDiv, dictCompAux, taxShareOf,
    dictGetItem, dictSum, dictWSum, scenarioSplit, scenarioReceipt,
    scenarioSplitDone, applesItem, breadItem, salesTax, pdA, tdA]

theorem scenario_total :
    total_shares scenarioSplitDone = Except.ok [("Alice", 99 / 10), ("Bob", 11 / 2)] := by
  norm_num +decide [total_shares, dictCompAux, totalShareOf, dictGetItem, dictGet?,
    dictSetItem, scenarioSplitDone, pdA, tdA]

theorem scenario_call :
    calculate_shares_call ⟨scenarioSplit, scenarioReceipt⟩
      = Except.ok ⟨scenarioSplitDone, scenarioReceipt⟩ := by
  simp [calculate_shares_call, scenario_calc]

theorem proc_calc :
    _process_items ["Alice", "Bob"] scenarioReceipt [[1, 2], [1]]
      = Except.ok procSplitDone := by
  norm_num +decide [_process_items, processItemsAux, processOneItem, appendSharesAux,
    validIndices, pyListIndex, pyIter, pyDiv, dictAppendTo, dictGet?, dictSetItem,
    dictFromKeys, dictFromKeysAux, calculate_shares, _calculate_pretax_shares_dict,
    addCommonShares, addSeparateShares, addAllAux, addSeparateAux, dictAddTo,
    dictCompAux, taxShareOf, dictGetItem, dictSum, dictWSum, scenarioReceipt,
    procSplitDone, applesItem, breadItem, salesTax, pdA, tdA,
    List.range, List.range.loop]

theorem cancelling_pretax :
    _calculate_pretax_shares_dict cancellingSplit
      = Except.ok [("Carol", 5), ("Dan", -5)] := by
  norm_num +decide [_calculate_pretax_shares_dict, addCommonShares, addSeparateShares,
    addSeparateAux, dictAddTo, dictGet?, dictSetItem, dictFromKeys, dictFromKeysAux,
    cancellingSplit, promoItem, rebateItem, itemsSubtotal]

/-! ## Claim theorems -/

/-- Claim C1: after `calculate_shares(receipt)` succeeds on a BillSplit whose
    total pre-tax share is nonzero, every participant's cached tax share is
    exactly their pre-tax share divided by the total pre-tax share, multiplied
    by the sum of `tax.total` over all tax entries of the receipt (negative
    discount lines included); equivalently the cross-multiplied ratio identity
    `tax_share * total_pretax = pretax_share * total_tax` holds for every
    participant. -/
theorem c1_tax_proportionality (b b' : BillSplitModel) (r : ReceiptModel)
    (pd td : Dict ℚ)
    (hcalc : calculate_shares b r = Except.ok b')
    (hpd : b'._participant_shares = some pd)
    (htd : b'._tax_shares = some td)
    (hT : dictSum pd ≠ 0) :
    ∀ p ∈ b.participants,
      dictGet? td p
        = (dictGet? pd p).map (fun s => s / dictSum pd * receiptTaxTotal r)
      ∧ (∀ s t, dictGet? pd p = some s → dictGet? td p = some t →
          t * dictSum pd = s * receiptTaxTotal r) := by
  obtain ⟨pd0, taxes, td0, hpd0, htaxes, hcomp, hb'⟩ :=
    calculate_shares_ok_elim b r b' hcalc
  rw [hb'] at hpd htd
  simp only at hpd htd
  obtain rfl : pd = pd0 := by
    injection hpd with h
    exact h.symm
  obtain rfl : td = td0 := by
    injection htd with h
    exact h.symm
  have hX : receiptTaxTotal r = (taxes.map TaxModel.total).sum := by
    unfold receiptTaxTotal
    rw [htaxes]
  intro p hp
  obtain ⟨v, hfv, hget⟩ := dictCompAux_ok_mem _ _ _ _ hcomp p hp
  unfold taxShareOf at hfv
  cases hg : dictGet? pd p with
  | none =>
    rw [dictGetItem, hg] at hfv
    exact absurd hfv (by simp)
  | some s =>
    rw [dictGetItem, hg] at hfv
    simp only at hfv
    rw [pyDiv, if_neg hT] at hfv
    simp only at hfv
    obtain rfl : s / dictSum pd * (taxes.map TaxModel.total).sum = v := by
      injection hfv
    constructor
    · rw [hget]
      simp [hX]
    · intro s' t hs' ht
      obtain rfl : s = s' := by injection hs'
      rw [hget] at ht
      obtain rfl : s / dictSum pd * (taxes.map TaxModel.total).sum = t := by
        injection ht
      rw [hX]
      field_simp

/-- Claim C1 witness: scenario A, participant Alice — her tax share 0.90 is
    her pre-tax 9 scaled by total tax over total pre-tax, and the
    cross-multiplied ratio identity holds. -/
theorem c1_tax_proportionality_witness :
    dictGet? tdA "Alice"
      = (dictGet? pdA "Alice").map
          (fun s => s / dictSum pdA * receiptTaxTotal scenarioReceipt)
    ∧ (9 : ℚ) / 10 * dictSum pdA = 9 * receiptTaxTotal scenarioReceipt := by
  have h := c1_tax_proportionality scenarioSplit scenarioSplitDone scenarioReceipt
    pdA tdA scenario_calc rfl rfl
    (by norm_num [pdA, dictSum, dictWSum]) "Alice" (by decide)
  refine ⟨h.1, h.2 9 (9 / 10) (by simp [pdA, dictGet?]) (by simp [tdA, dictGet?])⟩

/-- Claim C2: whenever the pre-tax computation runs successfully on a
    BillSplit with (duplicate-free) participants, each participant's pre-tax
    share equals the sum of all common_items subtotals divided by the number
    of participants, plus the sum of the subtotals listed under that
    participant's name in separate_items; and on spec scenario A (Apples
    10.00 common, Bread 4.00 for Alice, tax 1.40, participants Alice and Bob)
    the computed shares are Alice 9.00 / 0.90 / 9.90 and Bob 5.00 / 0.50 /
    5.50. -/
theorem c2_pretax_share_formula :
    (∀ (b : BillSplitModel) (pd : Dict ℚ), b.participants.Nodup →
      _calculate_pretax_shares_dict b = Except.ok pd →
      ∀ p ∈ b.participants,
        dictGet? pd p
          = some (commonSubtotal b / (b.participants.length : ℚ)
              + separateSubtotal b p))
    ∧ calculate_shares scenarioSplit scenarioReceipt = Except.ok scenarioSplitDone
    ∧ total_shares scenarioSplitDone
        = Except.ok [("Alice", 99 / 10), ("Bob", 11 / 2)] := by
  refine ⟨?_, scenario_calc, scenario_total⟩
  intro b pd hnd h p hp
  rw [pretax_ok_get _ _ h p, if_pos hp]
  have hc : b.participants.count p = 1 := List.count_eq_one_of_mem hnd hp
  rw [hc]
  norm_num

/-- Claim C2 witness: the general pre-tax formula instantiated at scenario A
    and participant Alice. -/
theorem c2_pretax_share_formula_witness :
    dictGet? pdA "Alice"
      = some (commonSubtotal scenarioSplit
          / (scenarioSplit.participants.length : ℚ)
          + separateSubtotal scenarioSplit "Alice") :=
  c2_pretax_share_formula.1 scenarioSplit pdA (by decide) scenario_pretax
    "Alice" (by decide)

/-- Claim C5: reading `tax_shares` or `total_shares` on a freshly constructed
    BillSplit — i.e. before `calculate_shares` has run — always raises the
    guarding `ValueError` ("not calculated yet"); it never returns an empty
    or default mapping. -/
theorem c5_state_guard (c0 : Option (List ItemModel))
    (s0 : Option (Dict (List ItemModel))) (p0 : List String)
    (b : BillSplitModel) (hmk : mkBillSplitModel c0 s0 p0 = Except.ok b) :
    tax_shares b = Except.error (PyError.valueError taxSharesNotCalculatedMsg)
    ∧ total_shares b
        = Except.error (PyError.valueError sharesNotCalculatedMsg) := by
  obtain rfl : (⟨c0, s0, p0, none, none⟩ : BillSplitModel) = b := by
    injection hmk
  exact ⟨rfl, rfl⟩

/-- Claim C5 witness: the fresh two-person split. -/
theorem c5_state_guard_witness :
    tax_shares zeroPretaxSplit
      = Except.error (PyError.valueError taxSharesNotCalculatedMsg)
    ∧ total_shares zeroPretaxSplit
      = Except.error (PyError.valueError sharesNotCalculatedMsg) :=
  c5_state_guard none none ["Alice", "Bob"] zeroPretaxSplit rfl

/-- Claim C10: a successful `calculate_shares` call mutates only the two
    private caches: `common_items`, `separate_items` and `participants` of the
    split are unchanged, and the receipt passed as argument is unchanged. -/
theorem c10_calculate_shares_frame (b : BillSplitModel) (r : ReceiptModel)
    (s' : EngineState) (h : calculate_shares_call ⟨b, r⟩ = Except.ok s') :
    s'.split.common_items = b.common_items
    ∧ s'.split.separate_items = b.separate_items
    ∧ s'.split.participants = b.participants
    ∧ s'.receipt = r := by
  unfold calculate_shares_call at h
  dsimp only at h
  split at h
  next e hc => exact absurd h (by simp)
  next b' hc =>
    obtain rfl : (⟨b', r⟩ : EngineState) = s' := by injection h
    obtain ⟨pd, taxes, td, h1, h2, h3, hb'⟩ := calculate_shares_ok_elim b r b' hc
    rw [hb']
    exact ⟨rfl, rfl, rfl, rfl⟩

/-- Claim C10 witness: the scenario A call leaves the item assignment, the
    participant list and the receipt unchanged. -/
theorem c10_calculate_shares_frame_witness :
    scenarioSplitDone.common_items = scenarioSplit.common_items
    ∧ scenarioSplitDone.separate_items = scenarioSplit.separate_items
    ∧ scenarioSplitDone.participants = scenarioSplit.participants
    ∧ scenarioReceipt = scenarioReceipt :=
  c10_calculate_shares_frame scenarioSplit scenarioReceipt
    ⟨scenarioSplitDone, scenarioReceipt⟩ scenario_call

/-- Claim C3: a fully-specified BillSplit built by the CLI from a receipt —
    one accepted index-list response per receipt item, each item going to
    common or split as per-sharer duplicates — conserves pre-tax money: the
    participant shares sum to the receipt items' subtotal sum within 0.01
    (in the exact-decimal semantics the two are equal). -/
theorem c3_pretax_conservation (participants : List String) (r : ReceiptModel)
    (items0 : List ItemModel) (splits : List (List Int)) (b' : BillSplitModel)
    (hitems : r.items = some items0)
    (hlen : splits.length = items0.length)
    (h : _process_items participants r splits = Except.ok b') :
    ∃ pd, b'._participant_shares = some pd
      ∧ |dictSum pd - itemsSubtotal items0| ≤ 1 / 100 := by
  unfold _process_items at h
  dsimp only at h
  split at h
  next e hit => exact absurd h (by simp)
  next items1 hit =>
    rw [hitems] at hit
    simp only [pyIter] at hit
    obtain rfl : items0 = items1 := by injection hit
    split at h
    next e hproc => exact absurd h (by simp)
    next ci si hproc =>
      obtain ⟨pd, taxes, td, hpd, htaxes, hcomp, hb'⟩ :=
        calculate_shares_ok_elim _ _ _ h
      refine ⟨pd, by rw [hb'], ?_⟩
      have hsum := pretax_ok_sum _ _ hpd
      have hproc_sum := processItemsAux_ok_sum _ _ _ _ _ hproc
      have hzip : ((items0.zip splits).map (fun pr => pr.1.subtotal)).sum
          = itemsSubtotal items0 := by
        have hfst : (items0.zip splits).map Prod.fst = items0 :=
          List.map_fst_zip items0 splits (by omega)
        calc ((items0.zip splits).map (fun pr => pr.1.subtotal)).sum
            = (((items0.zip splits).map Prod.fst).map ItemModel.subtotal).sum := by
              rw [List.map_map]
              rfl
          _ = itemsSubtotal items0 := by rw [hfst, itemsSubtotal]
      rw [hzip] at hproc_sum
      simp only [itemsSubtotal, List.map_nil, List.sum_nil,
        sepWSum_fromKeys_nil] at hproc_sum
      have hcommon : commonSubtotal (⟨some ci, some si, participants, none, none⟩
          : BillSplitModel) = itemsSubtotal ci := rfl
      have hsep : sepEntriesTotal (⟨some ci, some si, participants, none, none⟩
          : BillSplitModel) = sepWSum si := rfl
      rw [hcommon, hsep] at hsum
      rw [hsum]
      have hfinal : itemsSubtotal ci + sepWSum si = itemsSubtotal items0 := by
        simp only [itemsSubtotal]
        rw [hproc_sum]
        ring
      rw [hfinal]
      simp

/-- Claim C3 witness: scenario A processed through `_process_items` with the
    responses "" (everyone) for Apples and "1" (Alice) for Bread. -/
theorem c3_pretax_conservation_witness :
    ∃ pd, procSplitDone._participant_shares = some pd
      ∧ |dictSum pd - itemsSubtotal [applesItem, breadItem]| ≤ 1 / 100 :=
  c3_pretax_conservation ["Alice", "Bob"] scenarioReceipt [applesItem, breadItem]
    [[1, 2], [1]] procSplitDone rfl rfl proc_calc

/-- Claim C4 counterexample: on the two-person split with no items the
    combined pre-tax share is zero, and `calculate_shares` fails with the
    unguarded decimal division-by-zero exception from the bare division —
    not with a guarding `ValueError` ("clear error") as the claim requires. -/
theorem c4_degenerate_split_counterexample :
    _calculate_pretax_shares_dict zeroPretaxSplit
      = Except.ok [("Alice", 0), ("Bob", 0)]
    ∧ dictSum [(("Alice" : String), (0 : ℚ)), ("Bob", 0)] = 0
    ∧ calculate_shares zeroPretaxSplit scenarioReceipt
      = Except.error PyError.decimalDivisionError := by
  refine ⟨?_, by norm_num [dictSum, dictWSum], ?_⟩
  · norm_num +decide [_calculate_pretax_shares_dict, addCommonShares,
      addSeparateShares, dictFromKeys, dictFromKeysAux, dictSetItem,
      zeroPretaxSplit]
  · norm_num +decide [calculate_shares, _calculate_pretax_shares_dict,
      addCommonShares, addSeparateShares, dictFromKeys, dictFromKeysAux,
      dictSetItem, zeroPretaxSplit, pyIter, pyDiv, dictCompAux, taxShareOf,
      dictGetItem, dictGet?, dictSum, dictWSum, scenarioReceipt, salesTax]

/-- Claim C4 amended: `calculate_shares` on a BillSplit with a nonempty
    participants list whose combined pre-tax share is zero (taxes present on
    the receipt) raises the unguarded decimal division-by-zero exception from
    the proportional-tax division — it fails loudly, but with no guard and no
    clear message, and it never produces NaN. -/
theorem c4_degenerate_split_amended (b : BillSplitModel) (r : ReceiptModel)
    (pd : Dict ℚ) (taxes : List TaxModel)
    (hpd : _calculate_pretax_shares_dict b = Except.ok pd)
    (hzero : dictSum pd = 0) (hne : b.participants ≠ [])
    (htaxes : r.taxes_and_fees = some taxes) :
    calculate_shares b r = Except.error PyError.decimalDivisionError := by
  obtain ⟨p, rest, hps⟩ := List.exists_cons_of_ne_nil hne
  have hmem : p ∈ b.participants := by rw [hps]; exact List.mem_cons_self _ _
  have hs := pretax_ok_isSome _ _ hpd p hmem
  cases hg : dictGet? pd p with
  | none => rw [hg] at hs; simp at hs
  | some s =>
    unfold calculate_shares
    rw [hpd]
    dsimp only
    rw [htaxes]
    dsimp only [pyIter]
    rw [hps]
    simp [dictCompAux, taxShareOf, dictGetItem, hg, hzero, pyDiv]

/-- Claim C4 amended witness: a split whose separate items (+5 and -5) cancel
    to a zero pre-tax total raises the decimal division error. -/
theorem c4_degenerate_split_amended_witness :
    calculate_shares cancellingSplit emptyTaxReceipt
      = Except.error PyError.decimalDivisionError :=
  c4_degenerate_split_amended cancellingSplit emptyTaxReceipt
    [("Carol", 5), ("Dan", -5)] [] cancelling_pretax
    (by norm_num [dictSum, dictWSum]) (by simp [cancellingSplit]) rfl

/-- Claim C6 counterexample: constructing a BillSplit with an empty
    participants list succeeds (no validator runs), and even
    `calculate_shares` on it completes, returning empty share maps — there is
    no construction-time failure and no later failure either. -/
theorem c6_empty_participants_counterexample :
    mkBillSplitModel none none []
      = Except.ok ⟨none, none, [], none, none⟩
    ∧ calculate_shares ⟨none, none, [], none, none⟩ emptyTaxReceipt
      = Except.ok ⟨none, none, [], some [], some []⟩ := by
  refine ⟨rfl, ?_⟩
  norm_num +decide [calculate_shares, _calculate_pretax_shares_dict,
    addCommonShares, addSeparateShares, dictFromKeys, dictFromKeysAux, pyIter,
    dictCompAux, dictSum, dictWSum, emptyTaxReceipt]

/-- Claim C6 amended: constructing a BillSplit with an empty participants
    list succeeds with the fields retained and the caches unset — the empty
    list is even the field's declared default; the two-or-more-participants
    rule is enforced only by the interactive participant-collection loop in
    the interface layer, not by the model. -/
theorem c6_empty_participants_amended (c0 : Option (List ItemModel))
    (s0 : Option (Dict (List ItemModel))) :
    mkBillSplitModel c0 s0 [] = Except.ok ⟨c0, s0, [], none, none⟩ := rfl

/-- Claim C7 (code bug evidence): in the `billsplitter` revision, validating
    a Tax with a negative total raises `AttributeError` (the warning message
    interpolates the nonexistent `self.amount`), so construction fails
    instead of logging and retaining the value; the Item validator, by
    contrast, does only warn — quantity −1 is retained with a logged
    warning. -/
theorem c7_validation_warn_only_bug :
    Billsplitter.TaxModel.validate_tax_fields ⟨"Discount", none, -(3 / 2)⟩
      = Except.error (PyError.attributeError ("amount"))
    ∧ Billsplitter.TaxModel.validate_tax_fields ⟨"Service Fee", some 150, 2⟩
      = Except.ok (⟨"Service Fee", some 150, 2⟩,
          [Warning.invalidRate ("Service Fee")])
    ∧ Billsplitter.ItemModel.validate_item_fields ⟨"Eggs", some (-1), none, 5⟩
      = Except.ok (⟨"Eggs", some (-1), none, 5⟩,
          [Warning.invalidQuantity ("Eggs")]) := by
  refine ⟨?_, ?_, ?_⟩
  · norm_num [Billsplitter.TaxModel.validate_tax_fields]
  · norm_num +decide [Billsplitter.TaxModel.validate_tax_fields]
  · norm_num +decide [Billsplitter.ItemModel.validate_item_fields]

/-- The result of the sorted-set tail of `_extract_split_string_indices` is
    always duplicate-free. -/
theorem pySortedSet_result_nodup (parts : List (List Char)) (l : List Int)
    (h : (match parseParts parts with
      | Except.error e => Except.error e
      | Except.ok indices => Except.ok (pySortedSet indices)) = Except.ok l) :
    l.Nodup := by
  split at h
  next e hp => exact absurd h (by simp)
  next indices hp =>
    obtain rfl : pySortedSet indices = l := by injection h
    exact (List.perm_insertionSort _ _).nodup_iff.mpr (List.nodup_dedup _)

/-- Claim C8: manual-assignment split-string parsing — an empty response
    yields the full participant index set; "12" with two participants parses
    to the same index set {1, 2} as "1,2"; indices extracted from any
    nonempty response are deduplicated; and "13" with two participants is
    rejected by the validator (so `_get_item_split` re-prompts). -/
theorem c8_split_string_parsing :
    _extract_split_string_indices [1, 2] ("") = Except.ok [1, 2]
    ∧ _extract_split_string_indices [1, 2] ("12") = Except.ok [1, 2]
    ∧ _extract_split_string_indices [1, 2] ("1,2") = Except.ok [1, 2]
    ∧ (∀ (vi : List Int) (str : String) (l : List Int), str ≠ "" →
        _extract_split_string_indices vi str = Except.ok l → l.Nodup)
    ∧ _is_valid_split_str [1, 2] ("13") = false := by
  refine ⟨by decide, by decide, by decide, ?_, by decide⟩
  intro vi str l hne h
  unfold _extract_split_string_indices at h
  rw [if_neg hne] at h
  dsimp only [] at h
  exact pySortedSet_result_nodup _ _ h

/-- Claim C8 witness: the duplicate-removal component applied to the
    response "1,1", which extracts to the singleton duplicate-free set. -/
theorem c8_split_string_parsing_witness :
    (("1,1" : String) ≠ "") ∧ ([1] : List Int).Nodup :=
  ⟨by decide, c8_split_string_parsing.2.2.2.1 [1, 2] ("1,1") [1]
    (by decide) (by decide)⟩

/-- Claim C9: unlike `tax_shares` and `total_shares`, reading
    `participant_shares` on a freshly constructed (well-formed) BillSplit
    does not raise: it silently computes the pre-tax shares on first access
    and returns them, while `tax_shares` on the same object still raises its
    "not calculated" `ValueError`. -/
theorem c9_participant_shares_lazy (c0 : Option (List ItemModel))
    (s0 : Option (Dict (List ItemModel))) (p0 : List String)
    (b : BillSplitModel) (hmk : mkBillSplitModel c0 s0 p0 = Except.ok b)
    (hne : p0 ≠ []) (hkeys : ∀ k ∈ sepKeys b, k ∈ p0) :
    (∃ pd, _calculate_pretax_shares_dict b = Except.ok pd
      ∧ participant_shares b
        = Except.ok ({ b with _participant_shares := some pd }, pd))
    ∧ tax_shares b
      = Except.error (PyError.valueError taxSharesNotCalculatedMsg) := by
  obtain rfl : (⟨c0, s0, p0, none, none⟩ : BillSplitModel) = b := by
    injection hmk
  obtain ⟨pd, hpd⟩ := pretax_total ⟨c0, s0, p0, none, none⟩ hne hkeys
  refine ⟨⟨pd, hpd, ?_⟩, rfl⟩
  unfold participant_shares
  dsimp only
  rw [hpd]

/-- Claim C9 witness: the scenario A split, freshly constructed — its pre-tax
    shares are readable at once while `tax_shares` raises. -/
theorem c9_participant_shares_lazy_witness :
    (∃ pd, _calculate_pretax_shares_dict scenarioSplit = Except.ok pd
      ∧ participant_shares scenarioSplit
        = Except.ok ({ scenarioSplit with _participant_shares := some pd }, pd))
    ∧ tax_shares scenarioSplit
      = Except.error (PyError.valueError taxSharesNotCalculatedMsg) :=
  c9_participant_shares_lazy (some [applesItem])
    (some [("Alice", [breadItem])]) ["Alice", "Bob"] scenarioSplit rfl
    (by decide) (by decide)

end GroceryBillSplitter
